import Mathlib

/-!
# polaris-go: the value context of `pkg/model/context.go`

A shallow embedding of the session context (`valueContext`): the location snapshot
with its sticky-Ready update rule, the two one-shot notifiers, the blocking wait
protocol and the keyed store with its typed accessors.

Conventions of the embedding

* The object is used by one caller at a time: every method is a function from the
  state before the call to its result and the state after the call.
* `uint32` status codes are natural numbers; the four declared constants are 0..3.
* A Go run-time panic (a failed single-value type assertion) is `Except.error`.
* A call that stays parked on a channel which nobody closes returns `none`.
* The clock field is not embedded: no method below reads or writes it.
-/

namespace Polaris

/-! ## Constants -/

/-- ContextKeyEngine: key of the main-flow engine in the keyed store. -/
def ContextKeyEngine : String := "engine"

/-- ContextKeyToken: key of the unique SDK identity in the keyed store. -/
def ContextKeyToken : String := "SDKToken"

/-- ContextKeyPlugins: key of the plugin manager in the keyed store. -/
def ContextKeyPlugins : String := "plugins"

/-- LocationInit: no location information obtained yet (iota = 0). -/
def LocationInit : Nat := 0

/-- LocationError: fetching the location failed (iota = 1). -/
def LocationError : Nat := 1

/-- LocationReady: the location was fetched (iota = 2). -/
def LocationReady : Nat := 2

/-- LocationEmpty: the fetch succeeded but found nothing (iota = 3). -/
def LocationEmpty : Nat := 3

/-! ## Data model -/

/-- SDKToken: the unique identity of an SDK context. -/
structure SDKToken where
  IP : String
  PID : Int
  UID : String
  Client : String
  Version : String
  PodName : String
  HostName : String
deriving DecidableEq, Repr

/-- Modelled from the spec: the `Location` struct is declared elsewhere in the
package, not in `context.go`; the spec gives it as the triple of strings region,
zone, campus. -/
structure Location where
  Region : String
  Zone : String
  Campus : String
deriving DecidableEq, Repr

/-- Modelled from the spec: `Location.IsEmpty` is declared next to `Location`,
not in `context.go`; the spec says it holds iff all three of region, zone and
campus are unset (the empty string). -/
def Location.IsEmpty (l : Location) : Bool :=
  l.Region == "" && l.Zone == "" && l.Campus == ""

/-- Modelled from the spec: the `SDKError` interface is declared elsewhere in
the package, not in `context.go`; the spec calls it an optional domain error. A present error is
a value of this type, the nil interface is `none` of `Option SDKError`. -/
structure SDKError where
  code : Nat
  detail : String
deriving DecidableEq, Repr

/-- Modelled from the spec: the `Engine` interface is declared elsewhere in the
package, not in `context.go`; the spec calls it the engine capability handle. -/
structure Engine where
  handle : Nat
deriving DecidableEq, Repr

/-- Dynamic values of type `interface{}` as they can be put in the keyed store,
tagged with their dynamic type. -/
inductive Value where
  /-- the nil interface value -/
  | nil
  /-- a Go string -/
  | str (s : String)
  /-- a Go integer -/
  | int (n : Int)
  /-- an `SDKToken` struct value -/
  | sdkToken (t : SDKToken)
  /-- a `*SDKToken` pointer, possibly the nil pointer -/
  | sdkTokenPtr (t : Option SDKToken)
  /-- a value whose dynamic type implements `Engine` -/
  | engine (e : Engine)
deriving DecidableEq, Repr

/-- The wrapper `locationInfo`: location details, last error, status. -/
structure locationInfo where
  location : Option Location
  lastErr : Option SDKError
  locationStatus : Nat
deriving DecidableEq, Repr

/-- GetLocation returns the location details. -/
def locationInfo.GetLocation (l : locationInfo) : Option Location := l.location

/-- GetLastError returns the error of the last fetch. -/
def locationInfo.GetLastError (l : locationInfo) : Option SDKError := l.lastErr

/-- GetStatus returns the status code. -/
def locationInfo.GetStatus (l : locationInfo) : Nat := l.locationStatus

/-- IsLocationInitialized: `GetStatus() > LocationInit`. -/
def locationInfo.IsLocationInitialized (l : locationInfo) : Bool :=
  decide (l.GetStatus > LocationInit)

/-- IsLocationReady: `GetStatus() == LocationReady`. -/
def locationInfo.IsLocationReady (l : locationInfo) : Bool :=
  l.GetStatus == LocationReady

/-- The type `contextNotifier`: a cancellable context whose `Done` channel signals
the event, and a `sync.Once` guarding the cancel call.
`done` says whether the context has been cancelled (its `Done` channel is closed),
`onceNotify` whether the once has already run. -/
structure contextNotifier where
  done : Bool
  onceNotify : Bool
deriving DecidableEq, Repr

/-- Notify: `onceNotify.Do(cancel)`; the first call cancels the context, later
calls do nothing. -/
def contextNotifier.Notify (c : contextNotifier) : contextNotifier :=
  if c.onceNotify then c else { done := true, onceNotify := true }

/-- A notifier as `context.WithCancel(context.Background())` and a zero `sync.Once`
leave it. -/
def contextNotifier.armed : contextNotifier := { done := false, onceNotify := false }

/-- The implementation `valueContext`.
`coreMap` embeds the `sync.Map` as an association list with at most one entry
per key, the entry of a key being what `Load` finds. -/
structure valueContext where
  currentLocation : locationInfo
  locationInitializedNotify : contextNotifier
  locationReadyNotify : contextNotifier
  coreMap : List (String × Value)
deriving DecidableEq, Repr

/-- NewValueContext creates the context: an empty map, the snapshot
`locationInfo{locationStatus: LocationInit}` and two armed notifiers. -/
def NewValueContext : valueContext :=
  { currentLocation := { location := none, lastErr := none, locationStatus := LocationInit }
    locationInitializedNotify := contextNotifier.armed
    locationReadyNotify := contextNotifier.armed
    coreMap := [] }

/-! ## Keyed store -/

/-- SetValue: `coreMap.Store(key, value)`. -/
def valueContext.SetValue (v : valueContext) (key : String) (value : Value) : valueContext :=
  { v with coreMap := (key, value) :: v.coreMap.filter (fun kv => kv.1 != key) }

/-- GetValue: `coreMap.Load(key)`; the pair of the value (nil when absent) and
the found flag. -/
def valueContext.GetValue (v : valueContext) (key : String) : Value × Bool :=
  match v.coreMap.lookup key with
  | some x => (x, true)
  | none => (Value.nil, false)

/-- GetCurrentLocation loads the current snapshot. -/
def valueContext.GetCurrentLocation (v : valueContext) : locationInfo :=
  v.currentLocation

/-- GetClientId: "" when the token key is absent; otherwise the single-value
assertion `tokenValue.(SDKToken)`, which panics on any other dynamic type, and
the `UID` of the token. -/
def valueContext.GetClientId (v : valueContext) : Except String String :=
  match v.GetValue ContextKeyToken with
  | (_, false) => Except.ok ""
  | (Value.sdkToken t, true) => Except.ok t.UID
  | (_, true) => Except.error "interface conversion: interface is not model.SDKToken"

/-- GetEngine: nil when the engine key is absent; otherwise the single-value
assertion `value.(Engine)`, which panics when the dynamic value does not
implement `Engine` (the nil interface included). -/
def valueContext.GetEngine (v : valueContext) : Except String (Option Engine) :=
  match v.GetValue ContextKeyEngine with
  | (_, false) => Except.ok none
  | (Value.engine e, true) => Except.ok (some e)
  | (_, true) => Except.error "interface conversion: interface is not model.Engine"

/-! ## Location update -/

/-- The status that `SetCurrentLocation` gives the snapshot it builds (the
if / else-if / else at the head of the function). -/
def deriveStatus (location : Option Location) (lastErr : Option SDKError) : Nat :=
  match lastErr, location with
  | some _, _ => LocationError
  | none, some l => if !l.IsEmpty then LocationReady else LocationEmpty
  | none, none => LocationEmpty

/-- The snapshot `locInfo` that `SetCurrentLocation` builds from its arguments. -/
def newLocInfo (location : Option Location) (lastErr : Option SDKError) : locationInfo :=
  { location := location, lastErr := lastErr, locationStatus := deriveStatus location lastErr }

/-- SetCurrentLocation sets the location of the current node and returns whether
the context went from not ready to ready. -/
def valueContext.SetCurrentLocation (v : valueContext) (location : Option Location)
    (lastErr : Option SDKError) : Bool × valueContext :=
  let locInfo := newLocInfo location lastErr
  let lastLocationStatus := v.currentLocation.GetStatus
  let stored : valueContext × Bool :=
    if lastLocationStatus = LocationReady then
      -- in the ready state only a ready update is taken
      (if locInfo.locationStatus = LocationReady then { v with currentLocation := locInfo } else v,
       false)
    else
      -- the other states take any update
      ({ v with currentLocation := locInfo }, locInfo.locationStatus == LocationReady)
  let v1 := stored.1
  let becomeReady := stored.2
  let v2 := { v1 with locationInitializedNotify := v1.locationInitializedNotify.Notify }
  let v3 := if becomeReady then { v2 with locationReadyNotify := v2.locationReadyNotify.Notify }
            else v2
  (becomeReady, v3)

/-! ## Waiting -/

/-- The caller's `context.Context` as a blocked call sees it: `some d` when its
`Done` channel is closed `d` ticks after the call starts (`some 0`: it is already
closed when the call starts), `none` when it is never closed. -/
abbrev CancelCtx := Option Nat

/-- The `select` of the ready wait. A `select` proceeds with the first case that
becomes ready; when both are ready at the same time Go picks one of them at
random, which is the argument `pickCtx` (true: the `ctx.Done()` case is taken).
`readyDone` is whether the ready notifier's channel is closed, which does not
change while the call is parked. -/
def selectReady (ctx : CancelCtx) (readyDone : Bool) (pickCtx : Bool) : Option Bool :=
  match ctx, readyDone with
  | some 0, true => some (!pickCtx)
  | some (_ + 1), true => some true
  | none, true => some true
  | some _, false => some false
  | none, false => none

/-- WaitLocationInfo waits for the location status; the result (none: the call
stays parked) and the state after the call. -/
def valueContext.WaitLocationInfo (v : valueContext) (ctx : CancelCtx) (pickCtx : Bool)
    (locationStatus : Nat) : Option Bool × valueContext :=
  if locationStatus = LocationInit then
    (if v.locationInitializedNotify.done then some true else none, v)
  else if locationStatus = LocationError then
    (if v.locationInitializedNotify.done then
       some (v.GetCurrentLocation.GetStatus == LocationError)
     else none, v)
  else if locationStatus = LocationReady then
    (selectReady ctx v.locationReadyNotify.done pickCtx, v)
  else
    (some false, v)

/-- The method `valueContext.IsLocationReady`. -/
def valueContext.IsLocationReady (v : valueContext) : Bool :=
  v.GetCurrentLocation.IsLocationReady

/-! ## Call sequences -/

/-- One `SetCurrentLocation` call: its two arguments. -/
abbrev Proposal := Option Location × Option SDKError

/-- The state after the calls `ps`, made in order from the state `v`. -/
def publishAll (v : valueContext) : List Proposal → valueContext
  | [] => v
  | p :: ps => publishAll (v.SetCurrentLocation p.1 p.2).2 ps

/-- The return values of the calls `ps`, made in order from the state `v`. -/
def publishResults (v : valueContext) : List Proposal → List Bool
  | [] => []
  | p :: ps => (v.SetCurrentLocation p.1 p.2).1 :: publishResults (v.SetCurrentLocation p.1 p.2).2 ps

/-- The last proposal of `ps` that derives the ready status, if any. -/
def lastReady : List Proposal → Option Proposal
  | [] => none
  | p :: ps =>
    match lastReady ps with
    | some q => some q
    | none => if deriveStatus p.1 p.2 = LocationReady then some p else none

/-- One state-changing call on the context: `SetCurrentLocation(location, lastErr)`
or `SetValue(key, value)`. -/
inductive Call where
  /-- a `SetCurrentLocation` call with its two arguments -/
  | setLocation (location : Option Location) (lastErr : Option SDKError)
  /-- a `SetValue` call with its two arguments -/
  | setValue (key : String) (value : Value)
deriving DecidableEq, Repr

/-- Whether the call is a `SetCurrentLocation` call. -/
def Call.isSetLocation : Call → Bool
  | Call.setLocation _ _ => true
  | Call.setValue _ _ => false

/-- Whether the call is a `SetValue` call on the key `k`. -/
def Call.setsKey (k : String) : Call → Bool
  | Call.setLocation _ _ => false
  | Call.setValue key _ => key == k

/-- The state after one call made in the state `v`. -/
def Call.run (v : valueContext) : Call → valueContext
  | Call.setLocation l e => (v.SetCurrentLocation l e).2
  | Call.setValue k x => v.SetValue k x

/-- The state after the calls `cs`, made in order from the state `v`. -/
def runCalls (v : valueContext) : List Call → valueContext
  | [] => v
  | c :: cs => runCalls (c.run v) cs

/-- The status codes the package declares. -/
def declaredStatus (s : Nat) : Prop :=
  s = LocationInit ∨ s = LocationError ∨ s = LocationReady ∨ s = LocationEmpty

/-- Agreement of the notifiers with themselves and with the snapshot: a notifier's
context is cancelled exactly when its once has run, and the ready notifier has
fired exactly when the snapshot is ready. -/
def NotifierInv (v : valueContext) : Prop :=
  v.locationInitializedNotify.done = v.locationInitializedNotify.onceNotify ∧
  v.locationReadyNotify.done = v.locationReadyNotify.onceNotify ∧
  (v.locationReadyNotify.done = true ↔ v.currentLocation.locationStatus = LocationReady)

/-! ## Sample values of the scenarios -/

/-- Sample location of the scenarios: region "gz". -/
def locGz : Location := { Region := "gz", Zone := "", Campus := "" }

/-- Sample location of the scenarios: region "sh". -/
def locSh : Location := { Region := "sh", Zone := "", Campus := "" }

/-- Sample location with all three fields unset. -/
def locBlank : Location := { Region := "", Zone := "", Campus := "" }

/-- Sample error of the scenarios. -/
def someErr : SDKError := { code := 1, detail := "fetch location failed" }

/-- Sample identity token with UID "uid-1". -/
def someToken : SDKToken :=
  { IP := "127.0.0.1", PID := 7, UID := "uid-1", Client := "polaris-go", Version := "v1",
    PodName := "", HostName := "" }

/-! ## Basic facts -/

theorem deriveStatus_mem (l : Option Location) (e : Option SDKError) :
    deriveStatus l e = LocationError ∨ deriveStatus l e = LocationReady ∨
      deriveStatus l e = LocationEmpty := by
  cases e with
  | some err => exact Or.inl rfl
  | none =>
    cases l with
    | none => exact Or.inr (Or.inr rfl)
    | some loc =>
      cases h : loc.IsEmpty
      · exact Or.inr (Or.inl (by simp [deriveStatus, h]))
      · exact Or.inr (Or.inr (by simp [deriveStatus, h]))

theorem notify_onceNotify (c : contextNotifier) : c.Notify.onceNotify = true := by
  unfold contextNotifier.Notify
  by_cases h : c.onceNotify = true <;> simp [h]

theorem notify_done (c : contextNotifier) (h : c.done = c.onceNotify) :
    c.Notify.done = true := by
  unfold contextNotifier.Notify
  by_cases h1 : c.onceNotify = true
  · simp [h1, h]
  · simp [h1]

theorem notify_of_once (c : contextNotifier) (h : c.onceNotify = true) : c.Notify = c := by
  simp [contextNotifier.Notify, h]

theorem step_result (v : valueContext) (l : Option Location) (e : Option SDKError) :
    (v.SetCurrentLocation l e).1 = true ↔
      (v.currentLocation.locationStatus ≠ LocationReady ∧ deriveStatus l e = LocationReady) := by
  unfold valueContext.SetCurrentLocation
  by_cases h : v.currentLocation.locationStatus = LocationReady
  · simp [locationInfo.GetStatus, h]
  · simp [locationInfo.GetStatus, h, newLocInfo]

theorem step_snapshot (v : valueContext) (l : Option Location) (e : Option SDKError) :
    (v.SetCurrentLocation l e).2.currentLocation =
      if v.currentLocation.locationStatus = LocationReady ∧ deriveStatus l e ≠ LocationReady
      then v.currentLocation else newLocInfo l e := by
  unfold valueContext.SetCurrentLocation
  by_cases h : v.currentLocation.locationStatus = LocationReady <;>
    by_cases h2 : deriveStatus l e = LocationReady <;>
    simp [locationInfo.GetStatus, h, h2, newLocInfo]

theorem step_status (v : valueContext) (l : Option Location) (e : Option SDKError) :
    (v.SetCurrentLocation l e).2.currentLocation.locationStatus = LocationReady ↔
      (v.currentLocation.locationStatus = LocationReady ∨ deriveStatus l e = LocationReady) := by
  rw [step_snapshot]
  by_cases h : v.currentLocation.locationStatus = LocationReady <;>
    by_cases h2 : deriveStatus l e = LocationReady <;>
    simp [h, h2, newLocInfo]

theorem step_coreMap (v : valueContext) (l : Option Location) (e : Option SDKError) :
    (v.SetCurrentLocation l e).2.coreMap = v.coreMap := by
  unfold valueContext.SetCurrentLocation
  by_cases h : v.currentLocation.locationStatus = LocationReady <;>
    by_cases h2 : deriveStatus l e = LocationReady <;>
    simp [locationInfo.GetStatus, h, h2, newLocInfo]

theorem step_initNotify (v : valueContext) (l : Option Location) (e : Option SDKError) :
    (v.SetCurrentLocation l e).2.locationInitializedNotify = v.locationInitializedNotify.Notify := by
  unfold valueContext.SetCurrentLocation
  by_cases h : v.currentLocation.locationStatus = LocationReady <;>
    by_cases h2 : deriveStatus l e = LocationReady <;>
    simp [locationInfo.GetStatus, h, h2, newLocInfo]

theorem step_readyNotify (v : valueContext) (l : Option Location) (e : Option SDKError) :
    (v.SetCurrentLocation l e).2.locationReadyNotify =
      if (v.SetCurrentLocation l e).1 = true then v.locationReadyNotify.Notify
      else v.locationReadyNotify := by
  unfold valueContext.SetCurrentLocation
  by_cases h : v.currentLocation.locationStatus = LocationReady <;>
    by_cases h2 : deriveStatus l e = LocationReady <;>
    simp [locationInfo.GetStatus, h, h2, newLocInfo]

/-! ## Facts about call sequences -/

theorem step_inv (v : valueContext) (l : Option Location) (e : Option SDKError)
    (h : NotifierInv v) : NotifierInv (v.SetCurrentLocation l e).2 := by
  obtain ⟨h1, h2, h3⟩ := h
  refine ⟨?_, ?_, ?_⟩
  · rw [step_initNotify, notify_onceNotify, notify_done _ h1]
  · rw [step_readyNotify]
    by_cases hr : (v.SetCurrentLocation l e).1 = true
    · rw [if_pos hr]
      rw [notify_onceNotify, notify_done _ h2]
    · rw [if_neg hr]
      exact h2
  · rw [step_status, step_readyNotify]
    by_cases hr : (v.SetCurrentLocation l e).1 = true
    · rw [if_pos hr]
      rw [notify_done _ h2]
      have := (step_result v l e).1 hr
      simp [this.2]
    · rw [if_neg hr]
      rw [h3]
      have hn : ¬ (v.currentLocation.locationStatus ≠ LocationReady ∧
          deriveStatus l e = LocationReady) := fun hc => hr ((step_result v l e).2 hc)
      constructor
      · intro hs
        exact Or.inl hs
      · intro hs
        rcases hs with hs | hs
        · exact hs
        · by_contra hc
          exact hn ⟨hc, hs⟩

theorem fresh_inv : NotifierInv NewValueContext := by
  refine ⟨rfl, rfl, ?_⟩
  simp [NewValueContext, contextNotifier.armed, LocationInit, LocationReady]

theorem publishAll_inv (ps : List Proposal) (v : valueContext) (h : NotifierInv v) :
    NotifierInv (publishAll v ps) := by
  induction ps generalizing v with
  | nil => exact h
  | cons p ps ih => exact ih _ (step_inv v p.1 p.2 h)

theorem step_declared (v : valueContext) (l : Option Location) (e : Option SDKError)
    (h : declaredStatus v.currentLocation.locationStatus) :
    declaredStatus (v.SetCurrentLocation l e).2.currentLocation.locationStatus := by
  rw [step_snapshot]
  split
  · exact h
  · rcases deriveStatus_mem l e with hd | hd | hd
    · exact Or.inr (Or.inl hd)
    · exact Or.inr (Or.inr (Or.inl hd))
    · exact Or.inr (Or.inr (Or.inr hd))

theorem publishAll_declared (ps : List Proposal) (v : valueContext)
    (h : declaredStatus v.currentLocation.locationStatus) :
    declaredStatus (publishAll v ps).currentLocation.locationStatus := by
  induction ps generalizing v with
  | nil => exact h
  | cons p ps ih => exact ih _ (step_declared v p.1 p.2 h)

theorem publishAll_append (ps qs : List Proposal) (v : valueContext) :
    publishAll v (ps ++ qs) = publishAll (publishAll v ps) qs := by
  induction ps generalizing v with
  | nil => rfl
  | cons p ps ih => exact ih _

theorem publishResults_append (ps qs : List Proposal) (v : valueContext) :
    publishResults v (ps ++ qs) = publishResults v ps ++ publishResults (publishAll v ps) qs := by
  induction ps generalizing v with
  | nil => rfl
  | cons p ps ih => simp [publishResults, publishAll, ih]

theorem publishAll_status (ps : List Proposal) (v : valueContext) :
    (publishAll v ps).currentLocation.locationStatus = LocationReady ↔
      (v.currentLocation.locationStatus = LocationReady ∨
        ∃ q ∈ ps, deriveStatus q.1 q.2 = LocationReady) := by
  induction ps generalizing v with
  | nil => simp [publishAll]
  | cons p ps ih =>
    simp only [publishAll]
    rw [ih, step_status]
    simp only [List.mem_cons, exists_eq_or_imp]
    tauto

theorem publishAll_initOnce (p : Proposal) (ps : List Proposal) (v : valueContext) :
    (publishAll v (p :: ps)).locationInitializedNotify.onceNotify = true := by
  induction ps generalizing v p with
  | nil => simp only [publishAll]; rw [step_initNotify]; exact notify_onceNotify _
  | cons q ps ih => exact ih q _

theorem publishAll_coreMap (ps : List Proposal) (v : valueContext) :
    (publishAll v ps).coreMap = v.coreMap := by
  induction ps generalizing v with
  | nil => rfl
  | cons p ps ih => simp only [publishAll]; rw [ih, step_coreMap]

theorem publishResults_mem (ps : List Proposal) (v : valueContext)
    (h : true ∈ publishResults v ps) : ∃ q ∈ ps, deriveStatus q.1 q.2 = LocationReady := by
  induction ps generalizing v with
  | nil => simp [publishResults] at h
  | cons p ps ih =>
    simp only [publishResults, List.mem_cons] at h
    rcases h with h | h
    · exact ⟨p, List.mem_cons_self _ _, ((step_result v p.1 p.2).1 h.symm).2⟩
    · obtain ⟨q, hq, hd⟩ := ih _ h
      exact ⟨q, List.mem_cons_of_mem _ hq, hd⟩

theorem publishResults_ready (ps : List Proposal) (v : valueContext)
    (h : v.currentLocation.locationStatus = LocationReady) :
    ∀ b ∈ publishResults v ps, b = false := by
  induction ps generalizing v with
  | nil => simp [publishResults]
  | cons p ps ih =>
    intro b hb
    simp only [publishResults, List.mem_cons] at hb
    rcases hb with hb | hb
    · cases hr : (v.SetCurrentLocation p.1 p.2).1
      · rw [hb, hr]
      · exact absurd h ((step_result v p.1 p.2).1 hr).1
    · exact ih _ ((step_status v p.1 p.2).2 (Or.inl h)) b hb

theorem publishResults_count (ps : List Proposal) (v : valueContext) :
    (publishResults v ps).count true ≤ 1 := by
  induction ps generalizing v with
  | nil => simp [publishResults]
  | cons p ps ih =>
    simp only [publishResults]
    cases hr : (v.SetCurrentLocation p.1 p.2).1
    · rw [List.count_cons_of_ne (by decide)]
      exact ih _
    · rw [List.count_cons_self]
      have hs : (v.SetCurrentLocation p.1 p.2).2.currentLocation.locationStatus = LocationReady :=
        (step_status v p.1 p.2).2 (Or.inr ((step_result v p.1 p.2).1 hr).2)
      have h0 : (publishResults (v.SetCurrentLocation p.1 p.2).2 ps).count true = 0 := by
        rw [List.count_eq_zero]
        intro hm
        have := publishResults_ready ps _ hs true hm
        exact Bool.noConfusion this
      omega

theorem lastReady_none (ps : List Proposal) (h : lastReady ps = none) :
    ∀ q ∈ ps, deriveStatus q.1 q.2 ≠ LocationReady := by
  induction ps with
  | nil => simp
  | cons p ps ih =>
    simp only [lastReady] at h
    cases hl : lastReady ps with
    | some r => simp [hl] at h
    | none =>
      simp only [hl] at h
      intro q hq
      rcases List.mem_cons.1 hq with hq | hq
      · subst hq
        intro hc
        simp [hc] at h
      · exact ih hl q hq

theorem lastReady_some_of_mem (ps : List Proposal)
    (h : ∃ q ∈ ps, deriveStatus q.1 q.2 = LocationReady) : ∃ r, lastReady ps = some r := by
  cases hl : lastReady ps with
  | some r => exact ⟨r, rfl⟩
  | none =>
    obtain ⟨q, hq, hd⟩ := h
    exact absurd hd (lastReady_none ps hl q hq)

theorem publishAll_discard (ps : List Proposal) (v : valueContext)
    (h : v.currentLocation.locationStatus = LocationReady)
    (hn : ∀ q ∈ ps, deriveStatus q.1 q.2 ≠ LocationReady) :
    (publishAll v ps).currentLocation = v.currentLocation := by
  induction ps generalizing v with
  | nil => rfl
  | cons p ps ih =>
    have hp : deriveStatus p.1 p.2 ≠ LocationReady := hn p (List.mem_cons_self _ _)
    have hstep : (v.SetCurrentLocation p.1 p.2).2.currentLocation = v.currentLocation := by
      rw [step_snapshot]; simp [h, hp]
    simp only [publishAll]
    rw [ih _ (by rw [hstep]; exact h) (fun q hq => hn q (List.mem_cons_of_mem _ hq)), hstep]

theorem publishAll_lastReady (ps : List Proposal) (v : valueContext) (r : Proposal)
    (h : lastReady ps = some r) :
    (publishAll v ps).currentLocation = newLocInfo r.1 r.2 ∧
      deriveStatus r.1 r.2 = LocationReady := by
  induction ps generalizing v with
  | nil => simp [lastReady] at h
  | cons p ps ih =>
    simp only [lastReady] at h
    cases hl : lastReady ps with
    | some q =>
      simp only [hl, Option.some.injEq] at h
      subst h
      exact ih _ hl
    | none =>
      simp only [hl] at h
      by_cases hp : deriveStatus p.1 p.2 = LocationReady
      · simp only [hp, if_true, Option.some.injEq] at h
        subst h
        have hstep : (v.SetCurrentLocation p.1 p.2).2.currentLocation = newLocInfo p.1 p.2 := by
          rw [step_snapshot]; simp [hp]
        refine ⟨?_, hp⟩
        simp only [publishAll]
        rw [publishAll_discard ps _ (by rw [hstep]; exact hp) (lastReady_none ps hl), hstep]
      · simp [hp] at h

/-! ## The update rule -/

/-- C1 (monotonic readiness): in the state reached from a fresh context by any sequence
of SetCurrentLocation calls of which one returned true, a further call whose proposal
does not derive LocationReady returns false and leaves the whole context, so the
current snapshot, as it was; the status is LocationReady and the snapshot is the one
built from the last proposal of the sequence that derived LocationReady. -/
theorem monotonic_readiness (ps : List Proposal)
    (h : true ∈ publishResults NewValueContext ps)
    (l : Option Location) (e : Option SDKError)
    (hne : deriveStatus l e ≠ LocationReady) :
    (publishAll NewValueContext ps).SetCurrentLocation l e
        = (false, publishAll NewValueContext ps) ∧
      (publishAll NewValueContext ps).currentLocation.locationStatus = LocationReady ∧
      ∃ r, lastReady ps = some r ∧ deriveStatus r.1 r.2 = LocationReady ∧
        ((publishAll NewValueContext ps).SetCurrentLocation l e).2.currentLocation
          = newLocInfo r.1 r.2 := by
  have hex := publishResults_mem ps _ h
  have hst : (publishAll NewValueContext ps).currentLocation.locationStatus = LocationReady :=
    (publishAll_status ps _).2 (Or.inr hex)
  have hne0 : ps ≠ [] := by
    rintro rfl
    simp [publishResults] at h
  obtain ⟨p, qs, rfl⟩ := List.exists_cons_of_ne_nil hne0
  have honce := publishAll_initOnce p qs NewValueContext
  have hsame : (publishAll NewValueContext (p :: qs)).SetCurrentLocation l e
      = (false, publishAll NewValueContext (p :: qs)) := by
    unfold valueContext.SetCurrentLocation
    simp [locationInfo.GetStatus, hst, newLocInfo, hne, notify_of_once _ honce]
  obtain ⟨r, hr⟩ := lastReady_some_of_mem _ hex
  obtain ⟨hsnap, hrd⟩ := publishAll_lastReady _ NewValueContext r hr
  refine ⟨hsame, hst, r, hr, hrd, ?_⟩
  rw [hsame]
  exact hsnap

/-- Witness of C1: after the accepted call with region "gz" and a discarded empty
proposal, a failed fetch is discarded as well. -/
theorem monotonic_readiness_witness :
    (publishAll NewValueContext [(some locGz, none), (some locBlank, none)]).SetCurrentLocation
        none (some someErr)
        = (false, publishAll NewValueContext [(some locGz, none), (some locBlank, none)]) ∧
      (publishAll NewValueContext [(some locGz, none), (some locBlank, none)]
        ).currentLocation.locationStatus = LocationReady ∧
      ∃ r, lastReady [(some locGz, none), (some locBlank, none)] = some r ∧
        deriveStatus r.1 r.2 = LocationReady ∧
        ((publishAll NewValueContext [(some locGz, none), (some locBlank, none)]
          ).SetCurrentLocation none (some someErr)).2.currentLocation = newLocInfo r.1 r.2 :=
  monotonic_readiness [(some locGz, none), (some locBlank, none)] (by decide)
    none (some someErr) (by decide)

/-- C2 (return value): SetCurrentLocation returns true exactly when the status of the
snapshot before the call is not LocationReady and the status derived from the proposal
(the status of the snapshot the call builds) is LocationReady; a proposal published
while the status is LocationReady returns false, a ready one included. -/
theorem return_value_iff (v : valueContext) (l : Option Location) (e : Option SDKError) :
    ((v.SetCurrentLocation l e).1 = true ↔
        (v.GetCurrentLocation.GetStatus ≠ LocationReady ∧
          (newLocInfo l e).locationStatus = LocationReady)) ∧
      (v.GetCurrentLocation.GetStatus = LocationReady → (v.SetCurrentLocation l e).1 = false) := by
  constructor
  · exact step_result v l e
  · intro hs
    cases hr : (v.SetCurrentLocation l e).1
    · rfl
    · exact absurd hs ((step_result v l e).1 hr).1

/-- Witness of C2: a ready proposal published in the ready state returns false. -/
theorem return_value_iff_witness :
    ((NewValueContext.SetCurrentLocation (some locGz) none).2.SetCurrentLocation
      (some locSh) none).1 = false :=
  (return_value_iff (NewValueContext.SetCurrentLocation (some locGz) none).2
    (some locSh) none).2 (by decide)

/-- C3 (accept rule): when the status before the call is one of the four declared
constants, the snapshot after SetCurrentLocation is the newly built one (given
location, given error, derived status) if the previous status was LocationInit,
LocationError or LocationEmpty, or was LocationReady with a derived status
LocationReady, and is the previous snapshot otherwise; on a fresh context the call
with region "gz" and no error returns true and leaves status LocationReady with
region "gz". -/
theorem accept_rule (v : valueContext) (l : Option Location) (e : Option SDKError)
    (hs : declaredStatus v.GetCurrentLocation.GetStatus) :
    (v.SetCurrentLocation l e).2.GetCurrentLocation =
        (if v.GetCurrentLocation.GetStatus = LocationInit ∨
            v.GetCurrentLocation.GetStatus = LocationError ∨
            v.GetCurrentLocation.GetStatus = LocationEmpty ∨
            (v.GetCurrentLocation.GetStatus = LocationReady ∧
              deriveStatus l e = LocationReady)
         then { location := l, lastErr := e, locationStatus := deriveStatus l e }
         else v.GetCurrentLocation) ∧
      (NewValueContext.SetCurrentLocation (some locGz) none).1 = true ∧
      (NewValueContext.SetCurrentLocation (some locGz) none).2.GetCurrentLocation
        = { location := some locGz, lastErr := none, locationStatus := LocationReady } := by
  refine ⟨?_, by decide, by decide⟩
  simp only [valueContext.GetCurrentLocation, locationInfo.GetStatus] at hs ⊢
  rw [step_snapshot]
  rcases hs with h | h | h | h <;>
    by_cases hd : deriveStatus l e = LocationReady <;>
    simp [h, hd, newLocInfo, LocationInit, LocationError, LocationReady, LocationEmpty]

/-- Witness of C3: in the ready state with region "gz" an empty location is discarded. -/
theorem accept_rule_witness :
    ((NewValueContext.SetCurrentLocation (some locGz) none).2.SetCurrentLocation
        (some locBlank) none).2.GetCurrentLocation
      = { location := some locGz, lastErr := none, locationStatus := LocationReady } :=
  (accept_rule (NewValueContext.SetCurrentLocation (some locGz) none).2 (some locBlank) none
    (Or.inr (Or.inr (Or.inl (by decide))))).1.trans (by decide)

/-- C4 (status derivation): the snapshot SetCurrentLocation builds has status
LocationError when an error is given, whatever the location; with no error it has
status LocationReady for a present location whose IsEmpty is false (one of region,
zone, campus is set) and LocationEmpty for a present location whose IsEmpty is true;
its status is never LocationInit; and the call stores that snapshot when the status
before the call is not LocationReady. -/
theorem status_derivation (v : valueContext) (l : Option Location) (loc : Location)
    (err : SDKError) :
    (newLocInfo l (some err)).locationStatus = LocationError ∧
      (newLocInfo (some loc) none).locationStatus
        = (if loc.IsEmpty = true then LocationEmpty else LocationReady) ∧
      (loc.IsEmpty = false ↔ (loc.Region ≠ "" ∨ loc.Zone ≠ "" ∨ loc.Campus ≠ "")) ∧
      (∀ e : Option SDKError, (newLocInfo l e).locationStatus ≠ LocationInit) ∧
      (∀ e : Option SDKError, v.currentLocation.locationStatus ≠ LocationReady →
        (v.SetCurrentLocation l e).2.currentLocation = newLocInfo l e) := by
  refine ⟨rfl, ?_, ?_, ?_, ?_⟩
  · cases h : loc.IsEmpty <;> simp [newLocInfo, deriveStatus, h]
  · simp only [Location.IsEmpty, Bool.and_eq_false_iff, beq_eq_false_iff_ne, ne_eq,
      Bool.and_eq_true, beq_iff_eq, not_and_or, or_assoc]
  · intro e
    rcases deriveStatus_mem l e with h | h | h <;>
      simp [newLocInfo, h, LocationInit, LocationError, LocationReady, LocationEmpty]
  · intro e hv
    rw [step_snapshot]
    simp [hv]

/-- Witness of C4: on the fresh context a proposal with a non-empty location and an
error is stored with status LocationError. -/
theorem status_derivation_witness :
    (NewValueContext.SetCurrentLocation (some locGz) (some someErr)).2.currentLocation
      = { location := some locGz, lastErr := some someErr, locationStatus := LocationError } :=
  ((status_derivation NewValueContext (some locGz) locGz someErr).2.2.2.2
    (some someErr) (by decide)).trans (by decide)

/-! ## The notifiers -/

/-- C5 (initialized once): on a fresh context the "initialized" notifier is unfired;
Notify is idempotent; after any non-empty sequence of SetCurrentLocation calls, whatever
the proposals were and whether they were accepted or discarded, it is fired, and
WaitLocationInfo with target LocationInit returns true for every token. -/
theorem initialized_once :
    NewValueContext.locationInitializedNotify.done = false ∧
      (∀ c : contextNotifier, c.Notify.Notify = c.Notify) ∧
      (∀ (p : Proposal) (ps : List Proposal),
        (NewValueContext.SetCurrentLocation p.1 p.2).2.locationInitializedNotify.done = true ∧
        (publishAll NewValueContext (p :: ps)).locationInitializedNotify.done = true ∧
        ∀ (ctx : CancelCtx) (pickCtx : Bool),
          (publishAll NewValueContext (p :: ps)).WaitLocationInfo ctx pickCtx LocationInit
            = (some true, publishAll NewValueContext (p :: ps))) := by
  refine ⟨rfl, fun c => notify_of_once _ (notify_onceNotify c), fun p ps => ?_⟩
  have hdone : (publishAll NewValueContext (p :: ps)).locationInitializedNotify.done = true := by
    rw [(publishAll_inv (p :: ps) _ fresh_inv).1]
    exact publishAll_initOnce p ps _
  refine ⟨?_, hdone, fun ctx pickCtx => ?_⟩
  · rw [step_initNotify]
    exact notify_done _ rfl
  · simp [valueContext.WaitLocationInfo, hdone]

/-- C6 (ready once): for every sequence of calls on a fresh context followed by one more
call, the "ready" notifier is fired before that call exactly when an earlier proposal
derived LocationReady, the call returns true exactly when its proposal is the first
to derive LocationReady, the notifier is fired after it exactly when some proposal up
to it derived LocationReady, and at most one call of a sequence returns true. A failed
fetch followed by region "sh" returns false, then true, with ready unfired in between
and final status LocationReady with region "sh". -/
theorem ready_once (pre : List Proposal) (p : Proposal) :
    ((publishAll NewValueContext pre).locationReadyNotify.done = true ↔
        ∃ q ∈ pre, deriveStatus q.1 q.2 = LocationReady) ∧
      (((publishAll NewValueContext pre).SetCurrentLocation p.1 p.2).1 = true ↔
        (deriveStatus p.1 p.2 = LocationReady ∧
          ∀ q ∈ pre, deriveStatus q.1 q.2 ≠ LocationReady)) ∧
      (((publishAll NewValueContext pre).SetCurrentLocation p.1 p.2).2.locationReadyNotify.done
          = true ↔
        ((∃ q ∈ pre, deriveStatus q.1 q.2 = LocationReady) ∨
          deriveStatus p.1 p.2 = LocationReady)) ∧
      (publishResults NewValueContext (pre ++ [p])).count true ≤ 1 ∧
      publishResults NewValueContext [(none, some someErr), (some locSh, none)]
        = [false, true] ∧
      (NewValueContext.SetCurrentLocation none (some someErr)).2.locationReadyNotify.done
        = false ∧
      (publishAll NewValueContext [(none, some someErr), (some locSh, none)]).currentLocation
        = { location := some locSh, lastErr := none, locationStatus := LocationReady } := by
  have hfresh : NewValueContext.currentLocation.locationStatus ≠ LocationReady := by decide
  have hpre : (publishAll NewValueContext pre).currentLocation.locationStatus = LocationReady ↔
      ∃ q ∈ pre, deriveStatus q.1 q.2 = LocationReady := by
    rw [publishAll_status]
    simp [hfresh]
  have hinv := publishAll_inv pre _ fresh_inv
  refine ⟨?_, ?_, ?_, publishResults_count _ _, by decide, by decide, by decide⟩
  · rw [hinv.2.2, hpre]
  · rw [step_result, ne_eq, hpre]
    simp only [ne_eq, not_exists, not_and]
    tauto
  · rw [(step_inv _ p.1 p.2 hinv).2.2, step_status, hpre]

/-! ## Typed accessors -/

/-- C7, counterexample: with a string, a *SDKToken or the nil interface stored under
ContextKeyToken, GetClientId raises instead of returning ""; with a string or the nil
interface stored under ContextKeyEngine, GetEngine raises instead of returning nil. -/
theorem accessors_fail_soft_counterexample :
    (NewValueContext.SetValue ContextKeyToken (Value.str "x")).GetClientId
        = Except.error "interface conversion: interface is not model.SDKToken" ∧
      (NewValueContext.SetValue ContextKeyToken (Value.sdkTokenPtr (some someToken))).GetClientId
        = Except.error "interface conversion: interface is not model.SDKToken" ∧
      (NewValueContext.SetValue ContextKeyToken Value.nil).GetClientId
        = Except.error "interface conversion: interface is not model.SDKToken" ∧
      (NewValueContext.SetValue ContextKeyToken (Value.str "x")).GetClientId ≠ Except.ok "" ∧
      (NewValueContext.SetValue ContextKeyEngine (Value.str "x")).GetEngine
        = Except.error "interface conversion: interface is not model.Engine" ∧
      (NewValueContext.SetValue ContextKeyEngine Value.nil).GetEngine ≠ Except.ok none := by
  refine ⟨rfl, rfl, rfl, ?_, rfl, ?_⟩
  · intro h
    cases h
  · intro h
    cases h

/-- C7, amended: for every content of the keyed store, GetClientId returns "" without
raising when ContextKeyToken is absent and the UID when an SDKToken is stored, and
GetEngine returns nil without raising when ContextKeyEngine is absent and the engine
when one is stored; when the key holds a value of any other dynamic type the
assertion raises. -/
theorem accessors_absent_or_typed (v : valueContext) :
    ((v.GetValue ContextKeyToken).2 = false → v.GetClientId = Except.ok "") ∧
      (∀ t, v.GetValue ContextKeyToken = (Value.sdkToken t, true) →
        v.GetClientId = Except.ok t.UID) ∧
      ((v.GetValue ContextKeyToken).2 = true →
        (∀ t, (v.GetValue ContextKeyToken).1 ≠ Value.sdkToken t) →
        v.GetClientId = Except.error "interface conversion: interface is not model.SDKToken") ∧
      ((v.GetValue ContextKeyEngine).2 = false → v.GetEngine = Except.ok none) ∧
      (∀ g, v.GetValue ContextKeyEngine = (Value.engine g, true) →
        v.GetEngine = Except.ok (some g)) ∧
      ((v.GetValue ContextKeyEngine).2 = true →
        (∀ g, (v.GetValue ContextKeyEngine).1 ≠ Value.engine g) →
        v.GetEngine = Except.error "interface conversion: interface is not model.Engine") := by
  refine ⟨?_, ?_, ?_, ?_, ?_, ?_⟩
  · intro h
    unfold valueContext.GetClientId
    rcases hv : v.GetValue ContextKeyToken with ⟨x, b⟩
    rw [hv] at h
    simp only at h
    subst h
    cases x <;> rfl
  · intro t h
    unfold valueContext.GetClientId
    rw [h]
  · intro h hn
    unfold valueContext.GetClientId
    rcases hv : v.GetValue ContextKeyToken with ⟨x, b⟩
    rw [hv] at h hn
    simp only at h hn
    subst h
    cases x <;> first | rfl | exact absurd rfl (hn _)
  · intro h
    unfold valueContext.GetEngine
    rcases hv : v.GetValue ContextKeyEngine with ⟨x, b⟩
    rw [hv] at h
    simp only at h
    subst h
    cases x <;> rfl
  · intro g h
    unfold valueContext.GetEngine
    rw [h]
  · intro h hn
    unfold valueContext.GetEngine
    rcases hv : v.GetValue ContextKeyEngine with ⟨x, b⟩
    rw [hv] at h hn
    simp only at h hn
    subst h
    cases x <;> first | rfl | exact absurd rfl (hn _)

/-- Witness of C7 amended: the fresh context has neither key, and a stored token is
found by its UID. -/
theorem accessors_absent_or_typed_witness :
    NewValueContext.GetClientId = Except.ok "" ∧
      NewValueContext.GetEngine = Except.ok none ∧
      (NewValueContext.SetValue ContextKeyToken (Value.sdkToken someToken)).GetClientId
        = Except.ok "uid-1" ∧
      (NewValueContext.SetValue ContextKeyToken (Value.int 3)).GetClientId
        = Except.error "interface conversion: interface is not model.SDKToken" :=
  ⟨(accessors_absent_or_typed NewValueContext).1 rfl,
   (accessors_absent_or_typed NewValueContext).2.2.2.1 rfl,
   (accessors_absent_or_typed
      (NewValueContext.SetValue ContextKeyToken (Value.sdkToken someToken))).2.1 someToken rfl,
   (accessors_absent_or_typed
      (NewValueContext.SetValue ContextKeyToken (Value.int 3))).2.2.1 rfl
      (fun _ h => Value.noConfusion h)⟩

/-! ## Waiting -/

/-- C8, counterexample: in the ready state reached by one accepted call, a ready wait
whose token is already triggered finds both cases of its select ready, and returns
true when the select takes the notifier case. -/
theorem cancelled_ready_wait_counterexample :
    ((NewValueContext.SetCurrentLocation (some locGz) none).2.WaitLocationInfo
      (some 0) false LocationReady).1 = some true := by
  decide

/-- C8, amended: WaitLocationInfo with target LocationReady and a token that is already
triggered returns without blocking in every state; it returns false when the "ready"
notifier has not fired, and when the notifier has fired it returns false exactly when
the select takes the cancellation case; while the notifier has not fired, a token
that is triggered at any time makes the call return false, as on a fresh context
with a deadline. -/
theorem cancelled_ready_wait (v : valueContext) (pickCtx : Bool) :
    (∃ b, v.WaitLocationInfo (some 0) pickCtx LocationReady = (some b, v)) ∧
      (v.locationReadyNotify.done = false →
        ∀ d, v.WaitLocationInfo (some d) pickCtx LocationReady = (some false, v)) ∧
      (v.locationReadyNotify.done = true →
        v.WaitLocationInfo (some 0) pickCtx LocationReady = (some (!pickCtx), v)) ∧
      (∀ d, NewValueContext.WaitLocationInfo (some d) pickCtx LocationReady
        = (some false, NewValueContext)) := by
  have hfalse : ∀ (w : valueContext), w.locationReadyNotify.done = false →
      ∀ d, w.WaitLocationInfo (some d) pickCtx LocationReady = (some false, w) := by
    intro w hw d
    simp [valueContext.WaitLocationInfo, LocationReady, LocationInit, LocationError,
      selectReady, hw]
  have htrue : v.locationReadyNotify.done = true →
      v.WaitLocationInfo (some 0) pickCtx LocationReady = (some (!pickCtx), v) := by
    intro hv
    simp [valueContext.WaitLocationInfo, LocationReady, LocationInit, LocationError,
      selectReady, hv]
  refine ⟨?_, hfalse v, htrue, hfalse _ rfl⟩
  cases hd : v.locationReadyNotify.done
  · exact ⟨false, hfalse v hd 0⟩
  · exact ⟨!pickCtx, htrue hd⟩

/-- Witness of C8 amended: after a failed fetch the "ready" notifier has not fired, and
a ready wait with a deadline token returns false. -/
theorem cancelled_ready_wait_witness :
    (NewValueContext.SetCurrentLocation none (some someErr)).2.WaitLocationInfo
        (some 50) false LocationReady
      = (some false, (NewValueContext.SetCurrentLocation none (some someErr)).2) ∧
    (NewValueContext.SetCurrentLocation (some locGz) none).2.WaitLocationInfo
        (some 0) true LocationReady
      = (some false, (NewValueContext.SetCurrentLocation (some locGz) none).2) :=
  ⟨(cancelled_ready_wait (NewValueContext.SetCurrentLocation none (some someErr)).2
      false).2.1 (by decide) 50,
   (cancelled_ready_wait (NewValueContext.SetCurrentLocation (some locGz) none).2
      true).2.2.1 (by decide)⟩

/-- C9 (ready wait release): in the state reached from a fresh context by a sequence of
SetCurrentLocation calls of which one returned true, WaitLocationInfo with target
LocationReady and a token that is not triggered when the call starts returns true and
leaves the state as it was, so every further caller gets true as well; in a state
reached by calls none of which derived LocationReady the call does not return true. -/
theorem ready_wait_release (ps : List Proposal) (ctx : CancelCtx) (pickCtx : Bool) :
    (true ∈ publishResults NewValueContext ps → ctx ≠ some 0 →
        (publishAll NewValueContext ps).WaitLocationInfo ctx pickCtx LocationReady
          = (some true, publishAll NewValueContext ps)) ∧
      ((∀ q ∈ ps, deriveStatus q.1 q.2 ≠ LocationReady) →
        ((publishAll NewValueContext ps).WaitLocationInfo ctx pickCtx LocationReady).1
          ≠ some true) := by
  have hinv := publishAll_inv ps _ fresh_inv
  have hfresh : NewValueContext.currentLocation.locationStatus ≠ LocationReady := by decide
  constructor
  · intro h hctx
    have hdone : (publishAll NewValueContext ps).locationReadyNotify.done = true :=
      hinv.2.2.2 ((publishAll_status ps _).2 (Or.inr (publishResults_mem ps _ h)))
    rcases ctx with _ | _ | d
    · simp [valueContext.WaitLocationInfo, LocationReady, LocationInit, LocationError,
        selectReady, hdone]
    · exact absurd rfl hctx
    · simp [valueContext.WaitLocationInfo, LocationReady, LocationInit, LocationError,
        selectReady, hdone]
  · intro hn
    have hdone : (publishAll NewValueContext ps).locationReadyNotify.done = false := by
      cases hd : (publishAll NewValueContext ps).locationReadyNotify.done
      · rfl
      · rcases (publishAll_status ps _).1 (hinv.2.2.1 hd) with h | ⟨q, hq, hr⟩
        · exact absurd h hfresh
        · exact absurd hr (hn q hq)
    rcases ctx with _ | d <;>
      simp [valueContext.WaitLocationInfo, LocationReady, LocationInit, LocationError,
        selectReady, hdone]

/-- Witness of C9: after a failed fetch and an accepted location, a ready wait with a
token that is never triggered returns true; after the failed fetch alone it is parked. -/
theorem ready_wait_release_witness :
    (publishAll NewValueContext [(none, some someErr), (some locSh, none)]).WaitLocationInfo
        none false LocationReady
      = (some true, publishAll NewValueContext [(none, some someErr), (some locSh, none)]) ∧
    ((publishAll NewValueContext [(none, some someErr)]).WaitLocationInfo
        none false LocationReady).1 ≠ some true :=
  ⟨(ready_wait_release [(none, some someErr), (some locSh, none)] none false).1
      (by decide) (by decide),
   (ready_wait_release [(none, some someErr)] none false).2 (by decide)⟩

/-- C10 (error wait): in every state where the "initialized" notifier has fired,
WaitLocationInfo with target LocationError returns, whatever the token, and returns
true exactly when the status of the current snapshot is LocationError; after a ready
snapshot followed by a failed fetch, which is discarded, it returns false. -/
theorem error_wait (v : valueContext) (ctx : CancelCtx) (pickCtx : Bool)
    (h : v.locationInitializedNotify.done = true) :
    v.WaitLocationInfo ctx pickCtx LocationError
        = (some (v.GetCurrentLocation.GetStatus == LocationError), v) ∧
      ((v.WaitLocationInfo ctx pickCtx LocationError).1 = some true ↔
        v.GetCurrentLocation.GetStatus = LocationError) ∧
      ((publishAll NewValueContext [(some locGz, none), (none, some someErr)]).WaitLocationInfo
        ctx pickCtx LocationError).1 = some false := by
  have hw : v.WaitLocationInfo ctx pickCtx LocationError
      = (some (v.GetCurrentLocation.GetStatus == LocationError), v) := by
    simp [valueContext.WaitLocationInfo, LocationInit, LocationError, h]
  refine ⟨hw, ?_, ?_⟩
  · rw [hw]
    simp
  · simp only [valueContext.WaitLocationInfo]
    rfl

/-- Witness of C10: after a failed fetch on a fresh context the error wait returns
true. -/
theorem error_wait_witness :
    (NewValueContext.SetCurrentLocation none (some someErr)).2.WaitLocationInfo
        (some 0) true LocationError
      = (some true, (NewValueContext.SetCurrentLocation none (some someErr)).2) :=
  (error_wait (NewValueContext.SetCurrentLocation none (some someErr)).2 (some 0) true
    (by decide)).1.trans (by decide)

/-! ## Facts about the keyed store -/

theorem lookup_filter_ne (m : List (String × Value)) (k k2 : String) (h : k2 ≠ k) :
    (m.filter (fun kv => kv.1 != k)).lookup k2 = m.lookup k2 := by
  induction m with
  | nil => rfl
  | cons a m ih =>
    obtain ⟨ka, xa⟩ := a
    by_cases hk : ka = k
    · subst hk
      have h1 : (k2 == ka) = false := beq_eq_false_iff_ne.2 h
      simp [List.filter, List.lookup, h1, ih]
    · have h0 : (ka != k) = true := by simpa using hk
      by_cases h2 : k2 = ka
      · subst h2
        simp [List.filter, List.lookup, h0]
      · have h3 : (k2 == ka) = false := beq_eq_false_iff_ne.2 h2
        simp [List.filter, List.lookup, h0, h3, ih]

theorem getValue_setValue_same (v : valueContext) (k : String) (x : Value) :
    (v.SetValue k x).GetValue k = (x, true) := by
  simp [valueContext.SetValue, valueContext.GetValue, List.lookup]

theorem getValue_setValue_other (v : valueContext) (k k2 : String) (x : Value) (h : k2 ≠ k) :
    (v.SetValue k x).GetValue k2 = v.GetValue k2 := by
  have h1 : (k2 == k) = false := beq_eq_false_iff_ne.2 h
  simp only [valueContext.SetValue, valueContext.GetValue, List.lookup, h1]
  rw [lookup_filter_ne _ _ _ h]

theorem getValue_setLocation (v : valueContext) (l : Option Location) (e : Option SDKError)
    (k : String) : (v.SetCurrentLocation l e).2.GetValue k = v.GetValue k := by
  simp only [valueContext.GetValue, step_coreMap]

theorem getValue_run_other (v : valueContext) (c : Call) (k : String)
    (h : c.setsKey k = false) : (c.run v).GetValue k = v.GetValue k := by
  cases c with
  | setLocation l e => exact getValue_setLocation v l e k
  | setValue key x =>
    have hk : k ≠ key := by
      intro hc
      subst hc
      simp [Call.setsKey] at h
    exact getValue_setValue_other v key k x hk

theorem getValue_runCalls_other (cs : List Call) (v : valueContext) (k : String)
    (h : ∀ c ∈ cs, c.setsKey k = false) : (runCalls v cs).GetValue k = v.GetValue k := by
  induction cs generalizing v with
  | nil => rfl
  | cons c cs ih =>
    simp only [runCalls]
    rw [ih _ (fun d hd => h d (List.mem_cons_of_mem _ hd)),
      getValue_run_other v c k (h c (List.mem_cons_self _ _))]

theorem getClientId_congr (v w : valueContext)
    (h : w.GetValue ContextKeyToken = v.GetValue ContextKeyToken) :
    w.GetClientId = v.GetClientId := by
  simp only [valueContext.GetClientId, h]

theorem getEngine_congr (v w : valueContext)
    (h : w.GetValue ContextKeyEngine = v.GetValue ContextKeyEngine) :
    w.GetEngine = v.GetEngine := by
  simp only [valueContext.GetEngine, h]

/-! ## Wait targets, the store and construction -/

/-- C11 (undefined wait target): for every target status other than LocationInit (0),
LocationError (1) and LocationReady (2), LocationEmpty (3) included, and for every
state, token and select choice, WaitLocationInfo returns false at once, whether or not
either notifier has fired, and leaves the state as it was. -/
theorem undefined_wait_target (v : valueContext) (ctx : CancelCtx) (pickCtx : Bool)
    (target : Nat) (h0 : target ≠ LocationInit) (h1 : target ≠ LocationError)
    (h2 : target ≠ LocationReady) :
    v.WaitLocationInfo ctx pickCtx target = (some false, v) ∧
      v.WaitLocationInfo ctx pickCtx LocationEmpty = (some false, v) := by
  constructor
  · simp [valueContext.WaitLocationInfo, h0, h1, h2]
  · simp [valueContext.WaitLocationInfo, LocationInit, LocationError, LocationReady,
      LocationEmpty]

/-- Witness of C11: on the fresh context, where no notifier has fired, the target 7
with a token that is never triggered returns false. -/
theorem undefined_wait_target_witness :
    NewValueContext.WaitLocationInfo none false 7 = (some false, NewValueContext) :=
  (undefined_wait_target NewValueContext none false 7 (by decide) (by decide) (by decide)).1

/-- C12 (keyed store read after write): after SetValue(k, x), GetValue(k) returns
(x, true), also when k held another value before; GetValue of another key returns what
it returned before the SetValue; in a state reached from a fresh context by calls none
of which is a SetValue on k, GetValue(k) returns (nil, false); and after
SetValue("k", "v"), GetValue("k") is ("v", true) and GetValue("missing") is
(nil, false). -/
theorem store_read_after_write (v : valueContext) (k k2 : String) (x y : Value) :
    (v.SetValue k x).GetValue k = (x, true) ∧
      ((v.SetValue k y).SetValue k x).GetValue k = (x, true) ∧
      (k2 ≠ k → (v.SetValue k x).GetValue k2 = v.GetValue k2) ∧
      (∀ cs : List Call, (∀ c ∈ cs, c.setsKey k = false) →
        (runCalls NewValueContext cs).GetValue k = (Value.nil, false)) ∧
      (NewValueContext.SetValue "k" (Value.str "v")).GetValue "k" = (Value.str "v", true) ∧
      (NewValueContext.SetValue "k" (Value.str "v")).GetValue "missing"
        = (Value.nil, false) := by
  refine ⟨getValue_setValue_same v k x, getValue_setValue_same _ k x,
    fun h => getValue_setValue_other v k k2 x h, fun cs h => ?_, by decide, by decide⟩
  rw [getValue_runCalls_other cs _ k h]
  rfl

/-- Witness of C12: a store holding the token is read back unchanged under the token
key after the engine key is set, and a key that no call set is not found. -/
theorem store_read_after_write_witness :
    ((NewValueContext.SetValue ContextKeyToken (Value.sdkToken someToken)).SetValue
        ContextKeyEngine (Value.engine { handle := 1 })).GetValue ContextKeyToken
      = (NewValueContext.SetValue ContextKeyToken (Value.sdkToken someToken)).GetValue
          ContextKeyToken ∧
    (runCalls NewValueContext
        [Call.setValue "a" (Value.int 1), Call.setLocation (some locGz) none]).GetValue "b"
      = (Value.nil, false) :=
  ⟨(store_read_after_write (NewValueContext.SetValue ContextKeyToken (Value.sdkToken someToken))
      ContextKeyEngine ContextKeyToken (Value.engine { handle := 1 }) Value.nil).2.2.1
      (by decide),
   (store_read_after_write NewValueContext "b" "b" Value.nil Value.nil).2.2.2.1
      [Call.setValue "a" (Value.int 1), Call.setLocation (some locGz) none] (by decide)⟩

/-- C13 (construction contract): the context NewValueContext returns has a current
snapshot with status LocationInit, no location and no last error, so
IsLocationInitialized and IsLocationReady are both false; both notifiers are unfired
with their once unused; the keyed store is empty, GetValue finds no key, GetClientId
is "" and GetEngine is nil. -/
theorem construction_contract :
    NewValueContext.GetCurrentLocation.GetStatus = LocationInit ∧
      NewValueContext.GetCurrentLocation.GetLocation = none ∧
      NewValueContext.GetCurrentLocation.GetLastError = none ∧
      NewValueContext.GetCurrentLocation.IsLocationInitialized = false ∧
      NewValueContext.GetCurrentLocation.IsLocationReady = false ∧
      NewValueContext.IsLocationReady = false ∧
      NewValueContext.locationInitializedNotify = { done := false, onceNotify := false } ∧
      NewValueContext.locationReadyNotify = { done := false, onceNotify := false } ∧
      NewValueContext.coreMap = [] ∧
      (∀ k : String, NewValueContext.GetValue k = (Value.nil, false)) ∧
      NewValueContext.GetClientId = Except.ok "" ∧
      NewValueContext.GetEngine = Except.ok none := by
  refine ⟨rfl, rfl, rfl, rfl, rfl, rfl, rfl, rfl, rfl, fun k => rfl, rfl, rfl⟩

/-- C14 (waits are read-only): for every state, target status, token and select choice,
the state after a WaitLocationInfo call, whatever it returned, is the state before the
call: the current snapshot, both notifiers and the keyed store are as they were. -/
theorem wait_read_only (v : valueContext) (ctx : CancelCtx) (pickCtx : Bool) (target : Nat) :
    (v.WaitLocationInfo ctx pickCtx target).2 = v ∧
      (v.WaitLocationInfo ctx pickCtx target).2.currentLocation = v.currentLocation ∧
      (v.WaitLocationInfo ctx pickCtx target).2.locationInitializedNotify
        = v.locationInitializedNotify ∧
      (v.WaitLocationInfo ctx pickCtx target).2.locationReadyNotify = v.locationReadyNotify ∧
      (v.WaitLocationInfo ctx pickCtx target).2.coreMap = v.coreMap := by
  have h : (v.WaitLocationInfo ctx pickCtx target).2 = v := by
    unfold valueContext.WaitLocationInfo
    split_ifs <;> rfl
  rw [h]
  exact ⟨rfl, rfl, rfl, rfl, rfl⟩

/-! ## Reachable states -/

theorem step_not_init (v : valueContext) (l : Option Location) (e : Option SDKError) :
    (v.SetCurrentLocation l e).2.currentLocation.locationStatus ≠ LocationInit := by
  rw [step_snapshot]
  split
  · rename_i h
    rw [h.1]
    decide
  · rcases deriveStatus_mem l e with hd | hd | hd <;>
      simp [newLocInfo, hd, LocationInit, LocationError, LocationReady, LocationEmpty]

theorem run_inv (c : Call) (v : valueContext) (h : NotifierInv v) : NotifierInv (c.run v) := by
  cases c with
  | setLocation l e => exact step_inv v l e h
  | setValue k x => exact h

theorem run_initDone (c : Call) (v : valueContext) (h : NotifierInv v)
    (hi : v.locationInitializedNotify.done = true ↔
      v.currentLocation.locationStatus ≠ LocationInit) :
    (c.run v).locationInitializedNotify.done = true ↔
      (c.run v).currentLocation.locationStatus ≠ LocationInit := by
  cases c with
  | setLocation l e =>
    simp only [Call.run]
    rw [step_initNotify, notify_done _ h.1]
    exact ⟨fun _ => step_not_init v l e, fun _ => rfl⟩
  | setValue k x => exact hi

theorem runCalls_inv (cs : List Call) (v : valueContext) (h : NotifierInv v)
    (hi : v.locationInitializedNotify.done = true ↔
      v.currentLocation.locationStatus ≠ LocationInit) :
    NotifierInv (runCalls v cs) ∧
      ((runCalls v cs).locationInitializedNotify.done = true ↔
        (runCalls v cs).currentLocation.locationStatus ≠ LocationInit) := by
  induction cs generalizing v with
  | nil => exact ⟨h, hi⟩
  | cons c cs ih => exact ih _ (run_inv c v h) (run_initDone c v h hi)

theorem fresh_initDone :
    NewValueContext.locationInitializedNotify.done = true ↔
      NewValueContext.currentLocation.locationStatus ≠ LocationInit := by
  decide

theorem newLocInfo_error (l : Option Location) (e : Option SDKError) :
    (newLocInfo l e).locationStatus = LocationError ↔ (newLocInfo l e).lastErr ≠ none := by
  cases e with
  | some err => simp [newLocInfo, deriveStatus]
  | none =>
    cases l with
    | none => simp [newLocInfo, deriveStatus, LocationError, LocationEmpty]
    | some loc =>
      cases h : loc.IsEmpty <;>
        simp [newLocInfo, deriveStatus, h, LocationError, LocationEmpty, LocationReady]

theorem newLocInfo_ready (l : Option Location) (e : Option SDKError) :
    (newLocInfo l e).locationStatus = LocationReady ↔
      ((newLocInfo l e).lastErr = none ∧
        ∃ loc, (newLocInfo l e).location = some loc ∧ loc.IsEmpty = false) := by
  cases e with
  | some err => simp [newLocInfo, deriveStatus, LocationError, LocationReady]
  | none =>
    cases l with
    | none => simp [newLocInfo, deriveStatus, LocationReady, LocationEmpty]
    | some loc =>
      cases h : loc.IsEmpty <;>
        simp [newLocInfo, deriveStatus, h, LocationError, LocationEmpty, LocationReady]

theorem step_built (v : valueContext) (l : Option Location) (e : Option SDKError)
    (h : v.currentLocation = NewValueContext.currentLocation ∨
      ∃ l0 e0, v.currentLocation = newLocInfo l0 e0) :
    ∃ l1 e1, (v.SetCurrentLocation l e).2.currentLocation = newLocInfo l1 e1 := by
  rw [step_snapshot]
  split
  · rename_i hc
    rcases h with h | h
    · rw [h] at hc
      exact absurd hc.1 (by decide)
    · exact h
  · exact ⟨l, e, rfl⟩

theorem publishAll_built (ps : List Proposal) (p : Proposal) (v : valueContext)
    (h : v.currentLocation = NewValueContext.currentLocation ∨
      ∃ l0 e0, v.currentLocation = newLocInfo l0 e0) :
    ∃ l1 e1, (publishAll v (p :: ps)).currentLocation = newLocInfo l1 e1 := by
  induction ps generalizing v p with
  | nil => exact step_built v p.1 p.2 h
  | cons q ps ih => exact ih q _ (Or.inr (step_built v p.1 p.2 h))

theorem publishAll_not_init (ps : List Proposal) (p : Proposal) (v : valueContext) :
    (publishAll v (p :: ps)).currentLocation.locationStatus ≠ LocationInit := by
  induction ps generalizing v p with
  | nil => exact step_not_init v p.1 p.2
  | cons q ps ih => exact ih q _

/-! ## Invariants of reachable states -/

/-- C15 (notifier and state agreement): in every state reached from NewValueContext by
SetCurrentLocation and SetValue calls made one after the other, the "initialized"
notifier is fired exactly when the current status is not LocationInit, which is the
value of IsLocationInitialized, and the "ready" notifier is fired exactly when the
current status is LocationReady, which is the value of IsLocationReady. -/
theorem notifier_state_agreement (cs : List Call) :
    ((runCalls NewValueContext cs).locationInitializedNotify.done = true ↔
        (runCalls NewValueContext cs).GetCurrentLocation.GetStatus ≠ LocationInit) ∧
      (runCalls NewValueContext cs).locationInitializedNotify.done
        = (runCalls NewValueContext cs).GetCurrentLocation.IsLocationInitialized ∧
      ((runCalls NewValueContext cs).locationReadyNotify.done = true ↔
        (runCalls NewValueContext cs).GetCurrentLocation.GetStatus = LocationReady) ∧
      (runCalls NewValueContext cs).locationReadyNotify.done
        = (runCalls NewValueContext cs).GetCurrentLocation.IsLocationReady := by
  obtain ⟨hinv, hi⟩ := runCalls_inv cs _ fresh_inv fresh_initDone
  have hr := hinv.2.2
  refine ⟨hi, ?_, hr, ?_⟩
  · rw [Bool.eq_iff_iff, hi]
    simp [valueContext.GetCurrentLocation, locationInfo.IsLocationInitialized,
      locationInfo.GetStatus, LocationInit, Nat.pos_iff_ne_zero]
  · rw [Bool.eq_iff_iff, hr]
    simp [valueContext.GetCurrentLocation, locationInfo.IsLocationReady,
      locationInfo.GetStatus]

/-- C16 (snapshot self-consistency): in every state reached from NewValueContext by
SetCurrentLocation calls, the current snapshot has status LocationError iff its lastErr
is present, status LocationReady iff its lastErr is absent and its location is present
with IsEmpty false, and status LocationInit iff no call has been made; so a ready
snapshot carries no error and no absent or empty location. -/
theorem snapshot_self_consistent (ps : List Proposal) :
    ((publishAll NewValueContext ps).currentLocation.locationStatus = LocationError ↔
        (publishAll NewValueContext ps).currentLocation.lastErr ≠ none) ∧
      ((publishAll NewValueContext ps).currentLocation.locationStatus = LocationReady ↔
        ((publishAll NewValueContext ps).currentLocation.lastErr = none ∧
          ∃ loc, (publishAll NewValueContext ps).currentLocation.location = some loc ∧
            loc.IsEmpty = false)) ∧
      ((publishAll NewValueContext ps).currentLocation.locationStatus = LocationInit ↔
        ps = []) ∧
      ((publishAll NewValueContext ps).currentLocation.locationStatus = LocationReady →
        (publishAll NewValueContext ps).currentLocation.lastErr = none ∧
          (publishAll NewValueContext ps).currentLocation.location ≠ none ∧
          ∀ loc, (publishAll NewValueContext ps).currentLocation.location = some loc →
            loc.IsEmpty = false) := by
  have key : ((publishAll NewValueContext ps).currentLocation.locationStatus = LocationError ↔
        (publishAll NewValueContext ps).currentLocation.lastErr ≠ none) ∧
      ((publishAll NewValueContext ps).currentLocation.locationStatus = LocationReady ↔
        ((publishAll NewValueContext ps).currentLocation.lastErr = none ∧
          ∃ loc, (publishAll NewValueContext ps).currentLocation.location = some loc ∧
            loc.IsEmpty = false)) ∧
      ((publishAll NewValueContext ps).currentLocation.locationStatus = LocationInit ↔
        ps = []) := by
    cases ps with
    | nil =>
      refine ⟨?_, ?_, ?_⟩
      · simp [publishAll, NewValueContext, LocationInit, LocationError]
      · simp [publishAll, NewValueContext, LocationInit, LocationReady]
      · simp [publishAll, NewValueContext]
    | cons p qs =>
      obtain ⟨l1, e1, hb⟩ := publishAll_built qs p NewValueContext (Or.inl rfl)
      refine ⟨?_, ?_, ?_⟩
      · rw [hb]
        exact newLocInfo_error l1 e1
      · rw [hb]
        exact newLocInfo_ready l1 e1
      · constructor
        · intro h
          exact absurd h (publishAll_not_init qs p NewValueContext)
        · intro h
          exact absurd h (List.cons_ne_nil _ _)
  refine ⟨key.1, key.2.1, key.2.2, fun hr => ?_⟩
  obtain ⟨he, loc, hl, hne⟩ := key.2.1.1 hr
  refine ⟨he, ?_, ?_⟩
  · rw [hl]
    exact Option.some_ne_none _
  · intro loc2 hc
    rw [hl] at hc
    rw [← Option.some.inj hc]
    exact hne

/-- Witness of C16: after an empty result, a failed fetch and region "gz", the snapshot
is ready, so it carries no error and a present location. -/
theorem snapshot_self_consistent_witness :
    (publishAll NewValueContext
        [(some locBlank, none), (some locGz, some someErr), (some locGz, none)]
      ).currentLocation.lastErr = none ∧
    (publishAll NewValueContext
        [(some locBlank, none), (some locGz, some someErr), (some locGz, none)]
      ).currentLocation.location ≠ none ∧
    ∀ loc, (publishAll NewValueContext
        [(some locBlank, none), (some locGz, some someErr), (some locGz, none)]
      ).currentLocation.location = some loc → loc.IsEmpty = false :=
  (snapshot_self_consistent
    [(some locBlank, none), (some locGz, some someErr), (some locGz, none)]).2.2.2 (by decide)

/-! ## Absent location and client id -/

/-- C17 (absent location without error): SetCurrentLocation(nil, nil) derives status
LocationEmpty. Called in a state whose status is not LocationReady it returns false and
stores the snapshot with status LocationEmpty, nil location and nil error, signalling
the "initialized" notifier and leaving the "ready" notifier alone; in a state reached
from NewValueContext the "initialized" notifier is then fired and the "ready" notifier
is not. Called in a state whose status is LocationReady it returns false and keeps the
snapshot, and a state reached from NewValueContext is left exactly as it was. -/
theorem absent_location_no_error (v : valueContext) (cs : List Call) :
    deriveStatus none none = LocationEmpty ∧
      (v.currentLocation.locationStatus ≠ LocationReady →
        v.SetCurrentLocation none none
          = (false, { v with
              currentLocation :=
                { location := none, lastErr := none, locationStatus := LocationEmpty }
              locationInitializedNotify := v.locationInitializedNotify.Notify })) ∧
      ((runCalls NewValueContext cs).currentLocation.locationStatus ≠ LocationReady →
        ((runCalls NewValueContext cs).SetCurrentLocation none none
            ).2.locationInitializedNotify.done = true ∧
          ((runCalls NewValueContext cs).SetCurrentLocation none none
            ).2.locationReadyNotify.done = false) ∧
      (v.currentLocation.locationStatus = LocationReady →
        v.SetCurrentLocation none none
          = (false, { v with locationInitializedNotify := v.locationInitializedNotify.Notify })) ∧
      ((runCalls NewValueContext cs).currentLocation.locationStatus = LocationReady →
        (runCalls NewValueContext cs).SetCurrentLocation none none
          = (false, runCalls NewValueContext cs)) := by
  have hready : ∀ w : valueContext, w.currentLocation.locationStatus = LocationReady →
      w.SetCurrentLocation none none
        = (false, { w with locationInitializedNotify := w.locationInitializedNotify.Notify }) := by
    intro w hw
    have hw2 : w.currentLocation.locationStatus = 2 := hw
    unfold valueContext.SetCurrentLocation
    simp [locationInfo.GetStatus, hw2, newLocInfo, deriveStatus, LocationEmpty, LocationReady]
  have hother : ∀ w : valueContext, w.currentLocation.locationStatus ≠ LocationReady →
      w.SetCurrentLocation none none
        = (false, { w with
            currentLocation :=
              { location := none, lastErr := none, locationStatus := LocationEmpty }
            locationInitializedNotify := w.locationInitializedNotify.Notify }) := by
    intro w hw
    have hw2 : ¬ w.currentLocation.locationStatus = 2 := hw
    unfold valueContext.SetCurrentLocation
    simp [locationInfo.GetStatus, hw2, newLocInfo, deriveStatus, LocationEmpty, LocationReady]
  obtain ⟨hinv, hi⟩ := runCalls_inv cs _ fresh_inv fresh_initDone
  refine ⟨rfl, hother v, fun hs => ?_, hready v, fun hs => ?_⟩
  · rw [hother _ hs]
    refine ⟨notify_done _ hinv.1, ?_⟩
    cases hd : (runCalls NewValueContext cs).locationReadyNotify.done
    · rfl
    · exact absurd (hinv.2.2.1 hd) hs
  · rw [hready _ hs]
    have hdone : (runCalls NewValueContext cs).locationInitializedNotify.done = true :=
      hi.2 (by rw [hs]; decide)
    have honce : (runCalls NewValueContext cs).locationInitializedNotify.onceNotify = true := by
      rw [← hinv.1]
      exact hdone
    rw [notify_of_once _ honce]

/-- Witness of C17: on the fresh context the call with nil location and nil error stores
the empty snapshot and fires only the "initialized" notifier; after region "gz" it
changes nothing. -/
theorem absent_location_no_error_witness :
    NewValueContext.SetCurrentLocation none none
      = (false,
          { currentLocation :=
              { location := none, lastErr := none, locationStatus := LocationEmpty }
            locationInitializedNotify := { done := true, onceNotify := true }
            locationReadyNotify := { done := false, onceNotify := false }
            coreMap := [] }) ∧
    (runCalls NewValueContext [Call.setLocation (some locGz) none]).SetCurrentLocation none none
      = (false, runCalls NewValueContext [Call.setLocation (some locGz) none]) :=
  ⟨((absent_location_no_error NewValueContext []).2.1 (by decide)).trans (by decide),
   (absent_location_no_error NewValueContext [Call.setLocation (some locGz) none]).2.2.2.2
     (by decide)⟩

/-- C18 (client id lookup): for every SDKToken t, after SetValue(ContextKeyToken, t)
GetClientId returns t.UID; SetValue on another key and SetCurrentLocation leave the
result of GetClientId as it was, so it is t.UID after any further calls that do not
set ContextKeyToken; SetCurrentLocation leaves the keyed store as it was, and SetValue
leaves the snapshot and both notifiers as they were. -/
theorem client_id_lookup (v : valueContext) (t : SDKToken) :
    (v.SetValue ContextKeyToken (Value.sdkToken t)).GetClientId = Except.ok t.UID ∧
      (∀ (k : String) (x : Value), k ≠ ContextKeyToken →
        (v.SetValue k x).GetClientId = v.GetClientId) ∧
      (∀ (l : Option Location) (e : Option SDKError),
        (v.SetCurrentLocation l e).2.GetClientId = v.GetClientId ∧
          (v.SetCurrentLocation l e).2.coreMap = v.coreMap) ∧
      (∀ (k : String) (x : Value),
        (v.SetValue k x).currentLocation = v.currentLocation ∧
          (v.SetValue k x).locationInitializedNotify = v.locationInitializedNotify ∧
          (v.SetValue k x).locationReadyNotify = v.locationReadyNotify) ∧
      (∀ cs : List Call, (∀ c ∈ cs, c.setsKey ContextKeyToken = false) →
        (runCalls (v.SetValue ContextKeyToken (Value.sdkToken t)) cs).GetClientId
          = Except.ok t.UID) := by
  have hset : (v.SetValue ContextKeyToken (Value.sdkToken t)).GetClientId = Except.ok t.UID := by
    unfold valueContext.GetClientId
    rw [getValue_setValue_same]
  refine ⟨hset, fun k x hk => ?_, fun l e => ⟨?_, step_coreMap v l e⟩,
    fun k x => ⟨rfl, rfl, rfl⟩, fun cs hcs => ?_⟩
  · exact getClientId_congr _ _ (getValue_setValue_other v k ContextKeyToken x (Ne.symm hk))
  · exact getClientId_congr _ _ (getValue_setLocation v l e ContextKeyToken)
  · rw [getClientId_congr _ _ (getValue_runCalls_other cs _ ContextKeyToken hcs)]
    exact hset

/-- Witness of C18: the token is stored, then the engine is stored and a location is
published; GetClientId still returns the UID of the token. -/
theorem client_id_lookup_witness :
    (runCalls (NewValueContext.SetValue ContextKeyToken (Value.sdkToken someToken))
        [Call.setValue ContextKeyEngine (Value.engine { handle := 1 }),
         Call.setLocation (some locGz) none]).GetClientId = Except.ok "uid-1" ∧
    ((NewValueContext.SetValue ContextKeyToken (Value.sdkToken someToken)).SetValue
        ContextKeyPlugins Value.nil).GetClientId
      = (NewValueContext.SetValue ContextKeyToken (Value.sdkToken someToken)).GetClientId :=
  ⟨(client_id_lookup NewValueContext someToken).2.2.2.2
      [Call.setValue ContextKeyEngine (Value.engine { handle := 1 }),
       Call.setLocation (some locGz) none] (by decide),
   (client_id_lookup (NewValueContext.SetValue ContextKeyToken (Value.sdkToken someToken))
      someToken).2.1 ContextKeyPlugins Value.nil (by decide)⟩

end Polaris
